import Mathlib

/-!
Shallow embedding of the soterd repository fragment:
  cmd/dagdemo/dagdemo.go  (runNet, save, main)
  wire/msgverack.go       (MsgVerAck and its Message-interface methods)

External collaborators (rpctest.New, Harness.SetUp, Harness.TearDown,
rpctest.ConnectNodes, Node.GenerateAsync / future.Receive,
rpctest.RenderDagsDot, soterutil.DotToSvg, soterutil.StripSvgXmlDecl,
soterutil.RenderSvgHTML, ioutil.TempFile, os.Stat, os.OpenFile,
os.File.Write, os.File.Close) are modelled as oracles collected in an
environment record: each oracle yields the value and the error (as
`Option String`, mirroring Go's `err == nil` discipline) that the real
call would produce.  The orchestration logic itself is translated
statement by statement from dagdemo.go, and each external call it makes
is recorded in an event trace so that ordering and resource properties
(dispatch before fan-in, teardown per handle, no partial save) can be
stated about a run.
-/

namespace Dagdemo

/-- One observable external action performed by `runNet`.  Harnesses are
identified by their creation index (0-based, the loop variable `i` of the
provisioning loop in dagdemo.go). -/
inductive Event where
  | newNode (i : Nat)
  | setUpNode (i : Nat)
  | tearDown (i : Nat)
  | connectNodes
  | generateAsync (i : Nat) (blockCount : Nat)
  | receive (i : Nat)
  | renderDot
  | dotToSvg
  | stripDecl
  | renderHTML
  | createFile (name : String)
  | write (name : String) (contents : String)
deriving DecidableEq

/-- Environment of external-call outcomes.  `none` means the Go call
returned a nil error; `some e` means it returned an error whose
`%s`-formatted text is `e`.  Value-producing calls also yield the value
the successful call would return. -/
structure Env where
  /-- Outcome of `rpctest.New(&chaincfg.SimNetParams, nil, nil, false)` for the i-th miner. -/
  newErr : Nat → Option String
  /-- Outcome of `miner.SetUp(false, 0)` for the i-th miner. -/
  setUpErr : Nat → Option String
  /-- Outcome of `(*miner).TearDown()` for the i-th miner (dagdemo.go discards it: `_ =`). -/
  tearDownErr : Nat → Option String
  /-- Outcome of `rpctest.ConnectNodes(miners)`. -/
  connectErr : Option String
  /-- Outcome of `(*future).Receive()` for the future of the i-th miner. -/
  receiveErr : Nat → Option String
  /-- Value and outcome of `rpctest.RenderDagsDot(miners)`. -/
  renderDagsDotRes : List Nat → String × Option String
  /-- Value and outcome of `soterutil.DotToSvg(dot)`. -/
  dotToSvgRes : String → String × Option String
  /-- Value and outcome of `soterutil.StripSvgXmlDecl(svg)`. -/
  stripSvgXmlDeclRes : String → String × Option String
  /-- Value and outcome of `soterutil.RenderSvgHTML(svgEmbed, title)`. -/
  renderSvgHTMLRes : String → String → String × Option String
  /-- The system temporary directory used by `ioutil.TempFile` when dir is empty. -/
  tmpDir : String
  /-- The random text `ioutil.TempFile` substitutes for the `*` of the pattern. -/
  rand : String
  /-- Whether `os.Stat(path)` returns a nil error. -/
  statOk : String → Bool
  /-- Whether `info.IsDir()` holds for the stat result of `path`. -/
  isDir : String → Bool
  /-- Outcome of `ioutil.TempFile(dir, pattern)` (file creation only; the name is `tempFileName`). -/
  tempFileErr : String → Option String
  /-- Outcome of `os.OpenFile(path, os.O_RDWR|os.O_CREATE|os.O_TRUNC, 0644)`. -/
  openFileErr : String → Option String
  /-- Outcome of `fh.Write(bytes)`. -/
  writeErr : String → Option String
  /-- Outcome of `fh.Close()`. -/
  closeErr : String → Option String

/-- The provisioning loop of `runNet` (`for i := 0; i < minerCount; i++`),
started at index `s` with `n` iterations left.  On the first failing
`rpctest.New` or `SetUp` it returns the `fmt.Errorf` message of
dagdemo.go; otherwise the list of created harness indices.  The trace
records each `New` and `SetUp` call made. -/
def provisionFrom (env : Env) (s : Nat) : Nat → Except String (List Nat) × List Event
  | 0 => (Except.ok [], [])
  | Nat.succ n =>
    match env.newErr s with
    | some e =>
        (Except.error ("unable to create mining node " ++ toString s ++ ": " ++ e),
         [Event.newNode s])
    | none =>
      match env.setUpErr s with
      | some e =>
          (Except.error ("unable to complete mining node " ++ toString s ++ " setup: " ++ e),
           [Event.newNode s, Event.setUpNode s])
      | none =>
        match provisionFrom env (s + 1) n with
        | (r, tr) =>
            (Except.map (fun ms => s :: ms) r, Event.newNode s :: Event.setUpNode s :: tr)

/-- The deferred teardown loop of `runNet`: iterates all provisioned
miners and calls `TearDown` on each, discarding the error (`_ =`), so a
failing teardown never stops the loop. -/
def teardownEvents (env : Env) (miners : List Nat) : List Event :=
  miners.map (fun i =>
    let _ := env.tearDownErr i
    Event.tearDown i)

/-- The fan-out loop of `runNet`: one `GenerateAsync(blockCount)` call per
miner, in miner order, collecting one future per miner (index-aligned). -/
def genEvents (miners : List Nat) (blockCount : Nat) : List Event :=
  miners.map (fun i => Event.generateAsync i blockCount)

/-- The fan-in loop of `runNet` (`for i, future := range futures`):
blocks on `Receive` of each future in index order, returning the
`fmt.Errorf` message of the first failing receive; `i` is the running
index used in that message. -/
def receiveLoop (env : Env) (i : Nat) : List Nat → Except String Unit × List Event
  | [] => (Except.ok (), [])
  | f :: fs =>
    match env.receiveErr f with
    | some e =>
        (Except.error ("failed to wait for blocks to generate on node " ++ toString i ++ ": " ++ e),
         [Event.receive f])
    | none =>
      match receiveLoop env (i + 1) fs with
      | (r, tr) => (r, Event.receive f :: tr)

/-- The rendering pipeline of `runNet`: DOT text, DOT-to-SVG, XML
declaration stripping, HTML wrapping with title `"dag"`.  Each failing
stage aborts with its own wrapped error message. -/
def renderPipeline (env : Env) (miners : List Nat) : Except String String × List Event :=
  match env.renderDagsDotRes miners with
  | (_, some e) =>
      (Except.error ("failed to render dag in graphviz DOT format: " ++ e), [Event.renderDot])
  | (dot, none) =>
    match env.dotToSvgRes dot with
    | (_, some e) =>
        (Except.error ("failed to convert DOT file to SVG: " ++ e),
         [Event.renderDot, Event.dotToSvg])
    | (svg, none) =>
      match env.stripSvgXmlDeclRes svg with
      | (_, some e) =>
          (Except.error ("failed to strip xml declaration from SVG image: " ++ e),
           [Event.renderDot, Event.dotToSvg, Event.stripDecl])
      | (svgEmbed, none) =>
        match env.renderSvgHTMLRes svgEmbed "dag" with
        | (_, some e) =>
            (Except.error ("failed to render SVG image as HTML: " ++ e),
             [Event.renderDot, Event.dotToSvg, Event.stripDecl, Event.renderHTML])
        | (h, none) =>
          (Except.ok h,
           [Event.renderDot, Event.dotToSvg, Event.stripDecl, Event.renderHTML])

/-- Name of the file created by `ioutil.TempFile(dir, "dag_*.html")`:
the `*` of the pattern is replaced by random text, and an empty `dir`
means the system temporary directory. -/
def tempFileName (env : Env) (dir : String) : String :=
  (if dir.length = 0 then env.tmpDir else dir) ++ "/dag_" ++ env.rand ++ ".html"

/-- The output-destination logic of `runNet`: empty path means a temp
file in the system temp dir; an existing directory (stat succeeded and
IsDir) means a temp file inside it; anything else is opened as the exact
destination with `O_RDWR|O_CREATE|O_TRUNC`. -/
def resolveOutput (env : Env) (output : String) : Except String String :=
  if output.length = 0 then
    match env.tempFileErr "" with
    | some e => Except.error e
    | none => Except.ok (tempFileName env "")
  else
    if env.statOk output && env.isDir output then
      match env.tempFileErr output with
      | some e => Except.error e
      | none => Except.ok (tempFileName env output)
    else
      match env.openFileErr output with
      | some e => Except.error e
      | none => Except.ok output

/-- Function `save` of dagdemo.go: writes the bytes to the file handle, then
closes it, returning the first error unwrapped. -/
def save (env : Env) (bytes : String) (name : String) : Except String Unit × List Event :=
  match env.writeErr name with
  | some e => (Except.error e, [])
  | none =>
    match env.closeErr name with
    | some e => (Except.error e, [Event.write name bytes])
    | none => (Except.ok (), [Event.write name bytes])

/-- Everything `runNet` does after the provisioning loop (the region
covered by the deferred teardown): connect, fan-out, fan-in, rendering,
output resolution and save. -/
def runNetBody (env : Env) (miners : List Nat) (blockCount : Nat) (output : String) :
    Except String String × List Event :=
  match env.connectErr with
  | some e => (Except.error ("unable to connect nodes: " ++ e), [Event.connectNodes])
  | none =>
    match receiveLoop env 0 miners with
    | (Except.error e, rtr) =>
        (Except.error e, Event.connectNodes :: genEvents miners blockCount ++ rtr)
    | (Except.ok _, rtr) =>
      match renderPipeline env miners with
      | (Except.error e, ptr) =>
          (Except.error e, Event.connectNodes :: genEvents miners blockCount ++ rtr ++ ptr)
      | (Except.ok h, ptr) =>
        match resolveOutput env output with
        | Except.error e =>
            (Except.error ("failed to create output file-handle: " ++ e),
             Event.connectNodes :: genEvents miners blockCount ++ rtr ++ ptr)
        | Except.ok name =>
          match save env h name with
          | (Except.error e, str) =>
              (Except.error ("failed to save HTML file: " ++ e),
               Event.connectNodes :: genEvents miners blockCount ++ rtr ++ ptr ++
                 Event.createFile name :: str)
          | (Except.ok _, str) =>
              (Except.ok name,
               Event.connectNodes :: genEvents miners blockCount ++ rtr ++ ptr ++
                 Event.createFile name :: str)

/-- Function `runNet` of dagdemo.go.  The deferred teardown function is
registered only after the whole provisioning loop has succeeded, exactly
as in the source (`defer` follows the loop), so a provisioning failure
returns without any teardown events, while every later exit path appends
one teardown event per provisioned miner. -/
def runNet (env : Env) (minerCount blockCount : Nat) (output : String) :
    Except String String × List Event :=
  match provisionFrom env 0 minerCount with
  | (Except.error e, tr) => (Except.error e, tr)
  | (Except.ok miners, tr) =>
    match runNetBody env miners blockCount output with
    | (res, btr) => (res, tr ++ btr ++ teardownEvents env miners)

/-- Function `main` of dagdemo.go: parses `-o`, prints `Generating dag`, runs
`runNet(4, 50, output)`; on error prints the error and exits 1 via
`syscall.Exit(1)`, on success prints the saved path and returns (exit
code 0).  Result: (exit code, printed lines). -/
def mainRun (env : Env) (output : String) : Nat × List String :=
  match (runNet env 4 50 output).1 with
  | Except.error e => (1, ["Generating dag", toString e])
  | Except.ok htmlFile => (0, ["Generating dag", "Saved dag to " ++ htmlFile])

/-- Harness indices produced by a fully successful provisioning loop
starting at `s` with `n` iterations: `[s, s+1, ..., s+n-1]`. -/
def provOkList (s : Nat) : Nat → List Nat
  | 0 => []
  | Nat.succ n => s :: provOkList (s + 1) n

/-- Event trace of a fully successful provisioning loop starting at `s`
with `n` iterations. -/
def provOkTrace (s : Nat) : Nat → List Event
  | 0 => []
  | Nat.succ n => Event.newNode s :: Event.setUpNode s :: provOkTrace (s + 1) n

/-- Holds when `name` is a file directly inside `dir` named after the
`ioutil.TempFile` pattern `dag_*.html` of dagdemo.go. -/
def matchesTempPattern (dir name : String) : Prop :=
  ∃ r, name = dir ++ "/dag_" ++ r ++ ".html"

/-- The trace contains no file-creation and no write events: no artifact
was persisted. -/
def noOutputEvents (tr : List Event) : Prop :=
  ∀ e ∈ tr, (∀ name, e ≠ Event.createFile name) ∧ (∀ name c, e ≠ Event.write name c)

/-- A fully successful environment: every external call succeeds;
`outdir` is the only path that stats as an existing directory. -/
def okEnv : Env where
  newErr := fun _ => none
  setUpErr := fun _ => none
  tearDownErr := fun _ => none
  connectErr := none
  receiveErr := fun _ => none
  renderDagsDotRes := fun _ => ("digraph g", none)
  dotToSvgRes := fun d => ("svg of " ++ d, none)
  stripSvgXmlDeclRes := fun s => ("stripped " ++ s, none)
  renderSvgHTMLRes := fun s t => ("html " ++ t ++ " " ++ s, none)
  tmpDir := "/tmp"
  rand := "12345"
  statOk := fun p => p == "outdir"
  isDir := fun p => p == "outdir"
  tempFileErr := fun _ => none
  openFileErr := fun _ => none
  writeErr := fun _ => none
  closeErr := fun _ => none

/-- Environment in which `rpctest.New` fails for the second miner
(index 1) with message `boom`; everything else succeeds. -/
def envNewFail1 : Env :=
  { okEnv with newErr := fun i => if i == 1 then some "boom" else none }

/-- Environment in which block generation fails on node 0 (its future's
`Receive` returns an error) while everything else succeeds. -/
def envGenFail0 : Env :=
  { okEnv with receiveErr := fun i => if i == 0 then some "gen0" else none }

/-- Environment in which block generation fails on node 1 only and
teardown of node 0 also fails (the failure is discarded by the deferred
loop). -/
def envGenFail1TdFail0 : Env :=
  { okEnv with
      receiveErr := fun i => if i == 1 then some "gen1" else none,
      tearDownErr := fun i => if i == 0 then some "td0" else none }

end Dagdemo

namespace Wire

/-- Message encodings of the wire package (a uint32 enumeration). -/
abbrev MessageEncoding := Nat

/-- Struct `MsgVerAck` of wire/msgverack.go: a soter verack message; it has no
payload, so the struct has no fields. -/
inductive MsgVerAck where
  | mk : MsgVerAck
deriving DecidableEq

/-- Function `NewMsgVerAck` of wire/msgverack.go. -/
def NewMsgVerAck : MsgVerAck := MsgVerAck.mk

/-- Method `SotoDecode` of MsgVerAck: the body is `return nil`, so it reads
nothing from the reader (modelled as the list of remaining bytes),
changes nothing in the receiver, and never fails. -/
def SotoDecode (msg : MsgVerAck) (r : List Nat) (pver : Nat) (enc : MessageEncoding) :
    Option String × List Nat × MsgVerAck :=
  let _ := pver
  let _ := enc
  (none, r, msg)

/-- Method `SotoEncode` of MsgVerAck: the body is `return nil`, so it writes
nothing to the writer (modelled as the list of bytes written so far)
and never fails. -/
def SotoEncode (msg : MsgVerAck) (w : List Nat) (pver : Nat) (enc : MessageEncoding) :
    Option String × List Nat :=
  let _ := msg
  let _ := pver
  let _ := enc
  (none, w)

/-- Modelled from the spec: the protocol command string for the verack
message, the constant `CmdVerAck` of wire/message.go, which is not under
src/; the spec calls verack the acknowledgement handshake message, so
the command string is the message name `verack`. -/
def CmdVerAck : String := "verack"

/-- Method `Command` of MsgVerAck: returns `CmdVerAck`. -/
def Command (msg : MsgVerAck) : String :=
  let _ := msg
  CmdVerAck

/-- Method `MaxPayloadLength` of MsgVerAck: returns 0 for every protocol
version. -/
def MaxPayloadLength (msg : MsgVerAck) (pver : Nat) : Nat :=
  let _ := msg
  let _ := pver
  0

end Wire

namespace Dagdemo

theorem provisionFrom_all_ok (env : Env) :
    ∀ n s, (∀ k, k < n → env.newErr (s + k) = none ∧ env.setUpErr (s + k) = none) →
      provisionFrom env s n = (Except.ok (provOkList s n), provOkTrace s n) := by
  intro n
  induction n with
  | zero => intro s _; rfl
  | succ n ih =>
    intro s h
    have h0 := h 0 n.succ_pos
    rw [Nat.add_zero] at h0
    have hrec := ih (s + 1) (fun k hk => by
      have htmp := h (k + 1) (Nat.succ_lt_succ hk)
      have heq : s + (k + 1) = s + 1 + k := by omega
      rw [heq] at htmp
      exact htmp)
    simp [provisionFrom, h0.1, h0.2, hrec, provOkList, provOkTrace, Except.map]

theorem provisionFrom_ok_inv (env : Env) :
    ∀ n s ms, (provisionFrom env s n).1 = Except.ok ms →
      ms = provOkList s n ∧ (provisionFrom env s n).2 = provOkTrace s n := by
  intro n
  induction n with
  | zero =>
    intro s ms h
    simp [provisionFrom] at h
    simp [provisionFrom, h, provOkList, provOkTrace]
  | succ n ih =>
    intro s ms h
    rcases hn : env.newErr s with _ | e
    · rcases hsu : env.setUpErr s with _ | e
      · rcases hp : provisionFrom env (s + 1) n with ⟨r, tr⟩
        rcases r with e2 | ms2
        · simp [provisionFrom, hn, hsu, hp, Except.map] at h
        · simp only [provisionFrom, hn, hsu, hp, Except.map] at h ⊢
          simp at h
          have := ih (s + 1) ms2 (by rw [hp])
          subst h
          simp [provOkList, provOkTrace, this.1]
          have h2 := this.2
          rw [hp] at h2
          exact h2
        -- done
      · simp [provisionFrom, hn, hsu] at h
    · simp [provisionFrom, hn] at h


theorem provOkList_mem : ∀ n s i, i ∈ provOkList s n ↔ s ≤ i ∧ i < s + n := by
  intro n
  induction n with
  | zero => intro s i; simp [provOkList]
  | succ n ih =>
    intro s i
    simp [provOkList, ih (s + 1) i]
    omega

theorem provOkList_nodup : ∀ n s, (provOkList s n).Nodup := by
  intro n
  induction n with
  | zero => intro s; simp [provOkList]
  | succ n ih =>
    intro s
    simp [provOkList, ih (s + 1)]
    intro hmem
    have := (provOkList_mem n (s + 1) s).mp hmem
    omega

theorem provOkList_length : ∀ n s, (provOkList s n).length = n := by
  intro n
  induction n with
  | zero => intro s; rfl
  | succ n ih => intro s; simp [provOkList, ih (s + 1)]

theorem provOkList_split : ∀ j n s, j < n →
    provOkList s n =
      provOkList s j ++ (s + j) :: provOkList (s + j + 1) (n - j - 1) := by
  intro j
  induction j with
  | zero =>
    intro n s hj
    rcases n with _ | n
    · omega
    · simp [provOkList]
  | succ j ih =>
    intro n s hj
    rcases n with _ | n
    · omega
    · have := ih n (s + 1) (by omega)
      simp only [provOkList, this]
      have h1 : s + 1 + j = s + (j + 1) := by omega
      rw [h1]
      simp

theorem provOkTrace_events : ∀ n s e, e ∈ provOkTrace s n →
    (∃ i, e = Event.newNode i) ∨ (∃ i, e = Event.setUpNode i) := by
  intro n
  induction n with
  | zero => intro s e he; simp [provOkTrace] at he
  | succ n ih =>
    intro s e he
    simp only [provOkTrace, List.mem_cons] at he
    rcases he with h | h | h
    · exact Or.inl ⟨s, h⟩
    · exact Or.inr ⟨s, h⟩
    · exact ih (s + 1) e h


theorem provisionFrom_new_fail (env : Env) :
    ∀ j n s e, j < n →
      (∀ k, k < j → env.newErr (s + k) = none ∧ env.setUpErr (s + k) = none) →
      env.newErr (s + j) = some e →
      provisionFrom env s n =
        (Except.error ("unable to create mining node " ++ toString (s + j) ++ ": " ++ e),
         provOkTrace s j ++ [Event.newNode (s + j)]) := by
  intro j
  induction j with
  | zero =>
    intro n s e hj _ hfail
    rcases n with _ | n
    · omega
    · rw [Nat.add_zero] at hfail
      simp [provisionFrom, hfail, provOkTrace]
  | succ j ih =>
    intro n s e hj hok hfail
    rcases n with _ | n
    · omega
    · have h0 := hok 0 j.succ_pos
      rw [Nat.add_zero] at h0
      have heq : s + (j + 1) = s + 1 + j := by omega
      rw [heq] at hfail
      have hrec := ih n (s + 1) e (by omega) (fun k hk => by
        have htmp := hok (k + 1) (Nat.succ_lt_succ hk)
        have heq2 : s + (k + 1) = s + 1 + k := by omega
        rw [heq2] at htmp
        exact htmp) hfail
      simp [provisionFrom, h0.1, h0.2, hrec, provOkTrace, heq, Except.map]

theorem provisionFrom_setup_fail (env : Env) :
    ∀ j n s e, j < n →
      (∀ k, k < j → env.newErr (s + k) = none ∧ env.setUpErr (s + k) = none) →
      env.newErr (s + j) = none →
      env.setUpErr (s + j) = some e →
      provisionFrom env s n =
        (Except.error ("unable to complete mining node " ++ toString (s + j) ++ " setup: " ++ e),
         provOkTrace s j ++ [Event.newNode (s + j), Event.setUpNode (s + j)]) := by
  intro j
  induction j with
  | zero =>
    intro n s e hj _ hnew hfail
    rcases n with _ | n
    · omega
    · rw [Nat.add_zero] at hnew hfail
      simp [provisionFrom, hnew, hfail, provOkTrace]
  | succ j ih =>
    intro n s e hj hok hnew hfail
    rcases n with _ | n
    · omega
    · have h0 := hok 0 j.succ_pos
      rw [Nat.add_zero] at h0
      have heq : s + (j + 1) = s + 1 + j := by omega
      rw [heq] at hnew hfail
      have hrec := ih n (s + 1) e (by omega) (fun k hk => by
        have htmp := hok (k + 1) (Nat.succ_lt_succ hk)
        have heq2 : s + (k + 1) = s + 1 + k := by omega
        rw [heq2] at htmp
        exact htmp) hnew hfail
      simp [provisionFrom, h0.1, h0.2, hrec, provOkTrace, heq, Except.map]

theorem receiveLoop_all_ok (env : Env) :
    ∀ fs i, (∀ f, f ∈ fs → env.receiveErr f = none) →
      receiveLoop env i fs = (Except.ok (), fs.map Event.receive) := by
  intro fs
  induction fs with
  | nil => intro i _; rfl
  | cons f fs ih =>
    intro i h
    have hf : env.receiveErr f = none := h f (List.mem_cons_self f fs)
    have hrec := ih (i + 1) (fun g hg => h g (List.mem_cons_of_mem f hg))
    simp [receiveLoop, hf, hrec]

theorem receiveLoop_first_fail (env : Env) :
    ∀ fs1 f fs2 i e, (∀ g, g ∈ fs1 → env.receiveErr g = none) →
      env.receiveErr f = some e →
      receiveLoop env i (fs1 ++ f :: fs2) =
        (Except.error ("failed to wait for blocks to generate on node " ++
           toString (i + fs1.length) ++ ": " ++ e),
         fs1.map Event.receive ++ [Event.receive f]) := by
  intro fs1
  induction fs1 with
  | nil =>
    intro f fs2 i e _ hf
    simp [receiveLoop, hf]
  | cons g fs1 ih =>
    intro f fs2 i e hok hf
    have hg : env.receiveErr g = none := hok g (List.mem_cons_self g fs1)
    have hrec := ih f fs2 (i + 1) e (fun g2 hg2 => hok g2 (List.mem_cons_of_mem g hg2)) hf
    have heq : i + 1 + fs1.length = i + (fs1.length + 1) := by omega
    simp [receiveLoop, hg, hrec, heq]

theorem receiveLoop_events (env : Env) :
    ∀ fs i e, e ∈ (receiveLoop env i fs).2 → ∃ g, e = Event.receive g := by
  intro fs
  induction fs with
  | nil => intro i e he; simp [receiveLoop] at he
  | cons f fs ih =>
    intro i e he
    rcases hf : env.receiveErr f with _ | err
    · rcases hr : receiveLoop env (i + 1) fs with ⟨r, tr⟩
      simp only [receiveLoop, hf, hr, List.mem_cons] at he
      rcases he with h | h
      · exact ⟨f, h⟩
      · have := ih (i + 1) e (by rw [hr]; exact h)
        exact this
    · simp only [receiveLoop, hf, List.mem_singleton] at he
      exact ⟨f, he⟩


theorem teardownEvents_eq (env : Env) (ms : List Nat) :
    teardownEvents env ms = ms.map Event.tearDown := rfl

theorem renderPipeline_events (env : Env) (ms : List Nat) :
    ∀ e, e ∈ (renderPipeline env ms).2 →
      e = Event.renderDot ∨ e = Event.dotToSvg ∨ e = Event.stripDecl ∨
        e = Event.renderHTML := by
  intro e he
  unfold renderPipeline at he
  rcases h1 : env.renderDagsDotRes ms with ⟨dot, err1⟩
  simp only [h1] at he
  rcases err1 with _ | e1
  · rcases h2 : env.dotToSvgRes dot with ⟨svg, err2⟩
    simp only [h2] at he
    rcases err2 with _ | e2
    · rcases h3 : env.stripSvgXmlDeclRes svg with ⟨sve, err3⟩
      simp only [h3] at he
      rcases err3 with _ | e3
      · rcases h4 : env.renderSvgHTMLRes sve "dag" with ⟨ht, err4⟩
        simp only [h4] at he
        rcases err4 with _ | e4 <;> simp at he <;> tauto
      · simp at he; tauto
    · simp at he; tauto
  · simp at he; tauto

theorem save_events (env : Env) (bytes name : String) :
    ∀ e, e ∈ (save env bytes name).2 → e = Event.write name bytes := by
  intro e he
  unfold save at he
  rcases h1 : env.writeErr name with _ | e1 <;> simp only [h1] at he
  · rcases h2 : env.closeErr name with _ | e2 <;> simp only [h2] at he <;> simp at he <;>
      simp [he]
  · simp at he

theorem genEvents_events (ms : List Nat) (bc : Nat) :
    ∀ e, e ∈ genEvents ms bc → ∃ i, e = Event.generateAsync i bc := by
  intro e he
  simp only [genEvents, List.mem_map] at he
  rcases he with ⟨i, _, h⟩
  exact ⟨i, h.symm⟩

theorem runNetBody_no_tearDown (env : Env) (ms : List Nat) (bc : Nat) (out : String) :
    ∀ e, e ∈ (runNetBody env ms bc out).2 → ∀ i, e ≠ Event.tearDown i := by
  intro e he i hEq
  subst hEq
  unfold runNetBody at he
  rcases hc : env.connectErr with _ | ce <;> simp only [hc] at he
  · rcases hrl : receiveLoop env 0 ms with ⟨r, rtr⟩
    have hr2 : Event.tearDown i ∈ rtr → False := fun hx => by
      rcases receiveLoop_events env ms 0 (Event.tearDown i) (by rw [hrl]; exact hx) with ⟨g, hg⟩
      simp at hg
    rcases r with re | ru <;> simp only [hrl] at he
    · simp [genEvents] at he
      exact hr2 he
    · rcases hrp : renderPipeline env ms with ⟨p, ptr⟩
      have hp2 : Event.tearDown i ∈ ptr → False := fun hx => by
        rcases renderPipeline_events env ms (Event.tearDown i) (by rw [hrp]; exact hx) with
          h | h | h | h <;> simp at h
      rcases p with pe | ph <;> simp only [hrp] at he
      · simp [genEvents] at he
        rcases he with h | h
        · exact hr2 h
        · exact hp2 h
      · rcases hro : resolveOutput env out with oe | name <;> simp only [hro] at he
        · simp [genEvents] at he
          rcases he with h | h
          · exact hr2 h
          · exact hp2 h
        · rcases hsv : save env ph name with ⟨sr, str⟩
          have hw : Event.tearDown i ∈ str → False := fun hx => by
            have := save_events env ph name (Event.tearDown i) (by rw [hsv]; exact hx)
            simp at this
          rcases sr with se | su <;> simp only [hsv] at he <;> simp [genEvents] at he <;>
            rcases he with h | h | h
          · exact hr2 h
          · exact hp2 h
          · exact hw h
          · exact hr2 h
          · exact hp2 h
          · exact hw h
  · simp at he


open Event in
/-- C1: evidence against the claim at the failing input (2 miners, `rpctest.New`
fails for miner 1 with `boom`): `runNet` surfaces the provisioning error citing
index 1 and miner 0 was created and fully set up, but no TearDown is ever
invoked for miner 0, because the deferred teardown function is registered only
after the whole provisioning loop has finished; miner 1 is never set up. -/
theorem C1_provision_failure_leaks_handles :
    (runNet envNewFail1 2 50 "").1 = Except.error "unable to create mining node 1: boom" ∧
    Event.newNode 0 ∈ (runNet envNewFail1 2 50 "").2 ∧
    Event.setUpNode 0 ∈ (runNet envNewFail1 2 50 "").2 ∧
    Event.newNode 1 ∈ (runNet envNewFail1 2 50 "").2 ∧
    Event.tearDown 0 ∉ (runNet envNewFail1 2 50 "").2 ∧
    Event.setUpNode 1 ∉ (runNet envNewFail1 2 50 "").2 := by
  refine ⟨rfl, ?_, ?_, ?_, ?_, ?_⟩ <;> decide


/-- C3: on every exit path reached after provisioning succeeded (normal
completion or any later stage error, for an arbitrary environment, hence also
when some TearDown calls themselves fail), `runNet` performs exactly one
TearDown per provisioned handle; since the loop discards each TearDown error,
one handle failing to tear down never prevents the attempts on the others. -/
theorem C3_teardown_once_per_handle (env : Env) (n bc : Nat) (out : String)
    (miners : List Nat)
    (hprov : (provisionFrom env 0 n).1 = Except.ok miners) :
    ∀ i ∈ miners, ((runNet env n bc out).2).count (Event.tearDown i) = 1 := by
  intro i hi
  obtain ⟨hm, htr⟩ := provisionFrom_ok_inv env n 0 miners hprov
  rcases hp : provisionFrom env 0 n with ⟨r, tr⟩
  rw [hp] at hprov htr
  simp at hprov htr
  subst hprov
  subst htr
  have hinj : Function.Injective Event.tearDown := fun a b hab => by
    simpa using hab
  have hbody := runNetBody_no_tearDown env miners bc out
  unfold runNet
  rw [hp]
  simp only [List.count_append, teardownEvents_eq]
  have h1 : (provOkTrace 0 n).count (Event.tearDown i) = 0 := by
    rw [List.count_eq_zero]
    intro hmem
    rcases provOkTrace_events n 0 (Event.tearDown i) hmem with ⟨g, hg⟩ | ⟨g, hg⟩ <;>
      simp at hg
  have h2 : ((runNetBody env miners bc out).2).count (Event.tearDown i) = 0 := by
    rw [List.count_eq_zero]
    intro hmem
    exact hbody (Event.tearDown i) hmem i rfl
  have h3 : (miners.map Event.tearDown).count (Event.tearDown i) = 1 := by
    rw [List.count_map_of_injective miners Event.tearDown hinj i]
    rw [hm]
    exact List.count_eq_one_of_mem (provOkList_nodup n 0) (hm ▸ hi)
  rw [h1, h2, h3]

/-- C3 witness: with two provisioned miners, generation failing on node 1 and
TearDown itself failing on node 0, the run still tears each handle down
exactly once. -/
theorem C3_teardown_once_per_handle_witness :
    (provisionFrom envGenFail1TdFail0 0 2).1 = Except.ok [0, 1] ∧
    ((runNet envGenFail1TdFail0 2 50 "").2).count (Event.tearDown 0) = 1 ∧
    ((runNet envGenFail1TdFail0 2 50 "").2).count (Event.tearDown 1) = 1 := by
  refine ⟨rfl, ?_, ?_⟩
  · exact C3_teardown_once_per_handle envGenFail1TdFail0 2 50 "" [0, 1] rfl 0 (by decide)
  · exact C3_teardown_once_per_handle envGenFail1TdFail0 2 50 "" [0, 1] rfl 1 (by decide)

end Dagdemo

/-- C9: the verack message decode and encode are total no-ops: for every
receiver, reader, writer, protocol version and message encoding they return a
nil error, consume or produce no bytes, and leave the receiver unchanged. -/
theorem C9_verack_codec_trivial (msg : Wire.MsgVerAck) (r w : List Nat)
    (pver : Nat) (enc : Wire.MessageEncoding) :
    Wire.SotoDecode msg r pver enc = (none, r, msg) ∧
    Wire.SotoEncode msg w pver enc = (none, w) :=
  ⟨rfl, rfl⟩

/-- C10: MaxPayloadLength of a verack message is 0 for every protocol version
(the message carries no payload) and Command always returns the verack
command string. -/
theorem C10_verack_command_payload (msg : Wire.MsgVerAck) (pver : Nat) :
    Wire.MaxPayloadLength msg pver = 0 ∧ Wire.Command msg = Wire.CmdVerAck ∧
    Wire.Command msg = "verack" :=
  ⟨rfl, rfl, rfl⟩

namespace Dagdemo

theorem runNet_gen_fail (env : Env) (n bc : Nat) (out : String) (j : Nat) (e : String)
    (hprov : ∀ k, k < n → env.newErr k = none ∧ env.setUpErr k = none)
    (hconn : env.connectErr = none) (hj : j < n)
    (hok : ∀ k, k < j → env.receiveErr k = none)
    (hfail : env.receiveErr j = some e) :
    runNet env n bc out =
      (Except.error ("failed to wait for blocks to generate on node " ++ toString j ++ ": " ++ e),
       provOkTrace 0 n ++
         (Event.connectNodes :: genEvents (provOkList 0 n) bc ++
           ((provOkList 0 j).map Event.receive ++ [Event.receive j])) ++
         List.map Event.tearDown (provOkList 0 n)) := by
  have hp := provisionFrom_all_ok env n 0 (fun k hk => by simpa using hprov k hk)
  have hsplit := provOkList_split j n 0 hj
  rw [Nat.zero_add] at hsplit
  have hrcv : receiveLoop env 0 (provOkList 0 n) =
      (Except.error ("failed to wait for blocks to generate on node " ++ toString j ++ ": " ++ e),
       (provOkList 0 j).map Event.receive ++ [Event.receive j]) := by
    rw [hsplit]
    have hff := receiveLoop_first_fail env (provOkList 0 j) j (provOkList (j + 1) (n - j - 1)) 0 e
      (fun g hg => hok g (by have := (provOkList_mem j 0 g).mp hg; omega)) hfail
    rw [provOkList_length, Nat.zero_add] at hff
    exact hff
  unfold runNet
  rw [hp]
  simp only [runNetBody, hconn, hrcv, teardownEvents_eq]

end Dagdemo

namespace Dagdemo

/-- C2 counterexample: with two provisioned miners and generation failing on
node 0, both futures were dispatched (K = 2) but the fan-in loop returns at the
first failure: the future of node 1 is never Received, refuting that the loop
waits on all K futures to a terminal state. -/
theorem C2_waits_on_all_futures_cex :
    Event.generateAsync 0 50 ∈ (runNet envGenFail0 2 50 "").2 ∧
    Event.generateAsync 1 50 ∈ (runNet envGenFail0 2 50 "").2 ∧
    (runNet envGenFail0 2 50 "").1 =
      Except.error "failed to wait for blocks to generate on node 0: gen0" ∧
    Event.receive 0 ∈ (runNet envGenFail0 2 50 "").2 ∧
    Event.receive 1 ∉ (runNet envGenFail0 2 50 "").2 := by
  refine ⟨?_, ?_, rfl, ?_, ?_⟩ <;> decide

/-- C2 as amended: the fan-in loop Receives the futures in index order and
stops at the first failure, reporting the first-indexed failing future in its
error; futures with a higher index than the first failing one are never
Received, and all provisioned handles are still torn down by the deferred
cleanup. -/
theorem C2_first_failure_short_circuits (env : Env) (n bc : Nat) (out : String)
    (j : Nat) (e : String)
    (hprov : ∀ k, k < n → env.newErr k = none ∧ env.setUpErr k = none)
    (hconn : env.connectErr = none) (hj : j < n)
    (hok : ∀ k, k < j → env.receiveErr k = none)
    (hfail : env.receiveErr j = some e) :
    (runNet env n bc out).1 =
      Except.error ("failed to wait for blocks to generate on node " ++ toString j ++ ": " ++ e) ∧
    (∀ k, k ≤ j → Event.receive k ∈ (runNet env n bc out).2) ∧
    (∀ k, j < k → Event.receive k ∉ (runNet env n bc out).2) ∧
    (∀ i, i < n → Event.tearDown i ∈ (runNet env n bc out).2) := by
  have hgf := runNet_gen_fail env n bc out j e hprov hconn hj hok hfail
  rw [hgf]
  refine ⟨rfl, ?_, ?_, ?_⟩
  · intro k hk
    have h1 : Event.receive k ∈ (provOkList 0 j).map Event.receive ++ [Event.receive j] := by
      rcases Nat.lt_or_ge k j with h | h
      · exact List.mem_append_left _
          (List.mem_map.mpr ⟨k, (provOkList_mem j 0 k).mpr (by omega), rfl⟩)
      · have : k = j := by omega
        subst this
        exact List.mem_append_right _ (List.mem_singleton.mpr rfl)
    exact List.mem_append_left _
      (List.mem_append_right (provOkTrace 0 n)
        (List.mem_cons_of_mem _ (List.mem_append_right _ h1)))
  · intro k hk hmem
    rcases List.mem_append.mp hmem with h | h
    · rcases List.mem_append.mp h with h2 | h2
      · rcases provOkTrace_events n 0 (Event.receive k) h2 with ⟨g, hg⟩ | ⟨g, hg⟩ <;>
          simp at hg
      · rcases List.mem_cons.mp h2 with h3 | h3
        · simp at h3
        · rcases List.mem_append.mp h3 with h4 | h4
          · rcases genEvents_events (provOkList 0 n) bc (Event.receive k) h4 with ⟨g, hg⟩
            simp at hg
          · rcases List.mem_append.mp h4 with h5 | h5
            · rcases List.mem_map.mp h5 with ⟨g, hg, hgeq⟩
              have hgk : g = k := by simpa using hgeq
              have := (provOkList_mem j 0 g).mp hg
              omega
            · have : k = j := by simpa using List.mem_singleton.mp h5
              omega
    · rcases List.mem_map.mp h with ⟨g, _, hgeq⟩
      simp at hgeq
  · intro i hi
    exact List.mem_append_right _
      (List.mem_map.mpr ⟨i, (provOkList_mem n 0 i).mpr (by omega), rfl⟩)

/-- C2 witness: two miners, generation fails on node 0; the amended behavior
holds at this concrete input. -/
theorem C2_first_failure_short_circuits_witness :
    (runNet envGenFail0 2 50 "").1 =
      Except.error ("failed to wait for blocks to generate on node " ++
        toString 0 ++ ": " ++ "gen0") ∧
    (∀ k, k ≤ 0 → Event.receive k ∈ (runNet envGenFail0 2 50 "").2) ∧
    (∀ k, 0 < k → Event.receive k ∉ (runNet envGenFail0 2 50 "").2) ∧
    (∀ i, i < 2 → Event.tearDown i ∈ (runNet envGenFail0 2 50 "").2) :=
  C2_first_failure_short_circuits envGenFail0 2 50 "" 0 "gen0"
    (fun _ _ => ⟨rfl, rfl⟩) rfl (by omega) (fun k hk => absurd hk (by omega)) rfl

/-- C5: if generation fails on exactly one node j of n successfully
provisioned and connected nodes, the run returns the generation error citing
index j, and the trace ends with the teardown of every provisioned handle
(so all n handles are torn down before the error is surfaced). -/
theorem C5_single_gen_failure (env : Env) (n bc : Nat) (out : String)
    (j : Nat) (e : String)
    (hprov : ∀ k, k < n → env.newErr k = none ∧ env.setUpErr k = none)
    (hconn : env.connectErr = none) (hj : j < n)
    (hfail : env.receiveErr j = some e)
    (hunique : ∀ k, k < n → k ≠ j → env.receiveErr k = none) :
    (runNet env n bc out).1 =
      Except.error ("failed to wait for blocks to generate on node " ++ toString j ++ ": " ++ e) ∧
    (∃ pre, (runNet env n bc out).2 = pre ++ List.map Event.tearDown (provOkList 0 n)) ∧
    (∀ i, i < n → Event.tearDown i ∈ (runNet env n bc out).2) := by
  have hok : ∀ k, k < j → env.receiveErr k = none := fun k hk =>
    hunique k (by omega) (by omega)
  have hgf := runNet_gen_fail env n bc out j e hprov hconn hj hok hfail
  rw [hgf]
  refine ⟨rfl, ⟨_, rfl⟩, ?_⟩
  intro i hi
  exact List.mem_append_right _
    (List.mem_map.mpr ⟨i, (provOkList_mem n 0 i).mpr (by omega), rfl⟩)

/-- C5 witness: two miners, generation fails on node 1 only (and the discarded
TearDown of node 0 fails too); the error cites node 1 and both handles are
torn down. -/
theorem C5_single_gen_failure_witness :
    (runNet envGenFail1TdFail0 2 50 "").1 =
      Except.error ("failed to wait for blocks to generate on node " ++
        toString 1 ++ ": " ++ "gen1") ∧
    (∃ pre, (runNet envGenFail1TdFail0 2 50 "").2 =
      pre ++ List.map Event.tearDown (provOkList 0 2)) ∧
    (∀ i, i < 2 → Event.tearDown i ∈ (runNet envGenFail1TdFail0 2 50 "").2) :=
  C5_single_gen_failure envGenFail1TdFail0 2 50 "" 1 "gen1"
    (fun _ _ => ⟨rfl, rfl⟩) rfl (by omega) rfl
    (fun k hk hne => by
      interval_cases k
      · rfl
      · exact absurd rfl hne)

end Dagdemo

namespace Dagdemo

/-- C4: once provisioning has succeeded and the nodes are connected, the run
trace decomposes as: a prefix without any dispatch or receive, then exactly
the block of `GenerateAsync` dispatches, one per handle in handle order with
the given block count, then a segment of receive events only, then a suffix
without any dispatch or receive: every future is dispatched before any future
is polled to blocking completion. -/
theorem C4_dispatch_before_fanin (env : Env) (n bc : Nat) (out : String)
    (miners : List Nat)
    (hprov : (provisionFrom env 0 n).1 = Except.ok miners)
    (hconn : env.connectErr = none) :
    ∃ pre mid post,
      (runNet env n bc out).2 =
        pre ++ miners.map (fun i => Event.generateAsync i bc) ++ mid ++ post ∧
      (∀ e ∈ pre, (∀ i c, e ≠ Event.generateAsync i c) ∧ ∀ i, e ≠ Event.receive i) ∧
      (∀ e ∈ mid, ∃ i, e = Event.receive i) ∧
      (∀ e ∈ post, (∀ i c, e ≠ Event.generateAsync i c) ∧ ∀ i, e ≠ Event.receive i) := by
  obtain ⟨hm, htr⟩ := provisionFrom_ok_inv env n 0 miners hprov
  rcases hp : provisionFrom env 0 n with ⟨r, tr⟩
  rw [hp] at hprov htr
  simp at hprov htr
  subst hprov
  subst htr
  have hpre : ∀ e ∈ provOkTrace 0 n ++ [Event.connectNodes],
      (∀ i c, e ≠ Event.generateAsync i c) ∧ ∀ i, e ≠ Event.receive i := by
    intro e he
    rcases List.mem_append.mp he with h | h
    · rcases provOkTrace_events n 0 e h with ⟨g, hg⟩ | ⟨g, hg⟩ <;> subst hg <;>
        exact ⟨fun i c => by simp, fun i => by simp⟩
    · have heq : e = Event.connectNodes := List.mem_singleton.mp h
      subst heq
      exact ⟨fun i c => by simp, fun i => by simp⟩
  have htd : ∀ e ∈ teardownEvents env miners,
      (∀ i c, e ≠ Event.generateAsync i c) ∧ ∀ i, e ≠ Event.receive i := by
    intro e he
    rw [teardownEvents_eq] at he
    rcases List.mem_map.mp he with ⟨g, _, hg⟩
    subst hg
    exact ⟨fun i c => by simp, fun i => by simp⟩
  unfold runNet
  rw [hp]
  unfold runNetBody
  rw [hconn]
  rcases hrl : receiveLoop env 0 miners with ⟨rr, rtr⟩
  have hmid : ∀ e ∈ rtr, ∃ i, e = Event.receive i := fun e he =>
    receiveLoop_events env miners 0 e (by rw [hrl]; exact he)
  rcases rr with re | ru
  · refine ⟨provOkTrace 0 n ++ [Event.connectNodes], rtr, teardownEvents env miners,
      ?_, hpre, hmid, htd⟩
    simp [genEvents, hrl]
  · rcases hrp : renderPipeline env miners with ⟨p, ptr⟩
    have hpipe : ∀ e ∈ ptr,
        (∀ i c, e ≠ Event.generateAsync i c) ∧ ∀ i, e ≠ Event.receive i := by
      intro e he
      rcases renderPipeline_events env miners e (by rw [hrp]; exact he) with
        h | h | h | h <;> subst h <;> exact ⟨fun i c => by simp, fun i => by simp⟩
    rcases p with pe | ph
    · refine ⟨provOkTrace 0 n ++ [Event.connectNodes], rtr,
        ptr ++ teardownEvents env miners, ?_, hpre, hmid, ?_⟩
      · simp [genEvents, hrl, hrp]
      · intro e he
        rcases List.mem_append.mp he with h | h
        · exact hpipe e h
        · exact htd e h
    · rcases hro : resolveOutput env out with oe | name
      · refine ⟨provOkTrace 0 n ++ [Event.connectNodes], rtr,
          ptr ++ teardownEvents env miners, ?_, hpre, hmid, ?_⟩
        · simp [genEvents, hrl, hrp, hro]
        · intro e he
          rcases List.mem_append.mp he with h | h
          · exact hpipe e h
          · exact htd e h
      · rcases hsv : save env ph name with ⟨sr, str⟩
        have hsw : ∀ e ∈ Event.createFile name :: str,
            (∀ i c, e ≠ Event.generateAsync i c) ∧ ∀ i, e ≠ Event.receive i := by
          intro e he
          rcases List.mem_cons.mp he with h | h
          · subst h
            exact ⟨fun i c => by simp, fun i => by simp⟩
          · have hw := save_events env ph name e (by rw [hsv]; exact h)
            subst hw
            exact ⟨fun i c => by simp, fun i => by simp⟩
        have hpost : ∀ e ∈ ptr ++ Event.createFile name :: str ++ teardownEvents env miners,
            (∀ i c, e ≠ Event.generateAsync i c) ∧ ∀ i, e ≠ Event.receive i := by
          intro e he
          rcases List.mem_append.mp he with h | h
          · rcases List.mem_append.mp h with h2 | h2
            · exact hpipe e h2
            · exact hsw e h2
          · exact htd e h
        rcases sr with se | su
        · refine ⟨provOkTrace 0 n ++ [Event.connectNodes], rtr,
            ptr ++ Event.createFile name :: str ++ teardownEvents env miners,
            ?_, hpre, hmid, hpost⟩
          simp [genEvents, hrl, hrp, hro, hsv]
        · refine ⟨provOkTrace 0 n ++ [Event.connectNodes], rtr,
            ptr ++ Event.createFile name :: str ++ teardownEvents env miners,
            ?_, hpre, hmid, hpost⟩
          simp [genEvents, hrl, hrp, hro, hsv]

end Dagdemo

namespace Dagdemo

/-- C4 witness: one miner, everything succeeding; the decomposition holds at
this concrete input. -/
theorem C4_dispatch_before_fanin_witness :
    (provisionFrom okEnv 0 1).1 = Except.ok [0] ∧
    okEnv.connectErr = none ∧
    (∃ pre mid post,
      (runNet okEnv 1 50 "").2 =
        pre ++ [0].map (fun i => Event.generateAsync i 50) ++ mid ++ post ∧
      (∀ e ∈ pre, (∀ i c, e ≠ Event.generateAsync i c) ∧ ∀ i, e ≠ Event.receive i) ∧
      (∀ e ∈ mid, ∃ i, e = Event.receive i) ∧
      (∀ e ∈ post, (∀ i c, e ≠ Event.generateAsync i c) ∧ ∀ i, e ≠ Event.receive i)) :=
  ⟨rfl, rfl, C4_dispatch_before_fanin okEnv 1 50 "" [0] rfl rfl⟩

theorem runNet_ok_inv (env : Env) (n bc : Nat) (out name : String)
    (h : (runNet env n bc out).1 = Except.ok name) :
    resolveOutput env out = Except.ok name := by
  unfold runNet at h
  rcases hp : provisionFrom env 0 n with ⟨r, tr⟩
  simp only [hp] at h
  rcases r with e | ms
  · simp at h
  · unfold runNetBody at h
    rcases hc : env.connectErr with _ | ce <;> simp only [hc] at h
    · rcases hrl : receiveLoop env 0 ms with ⟨rr, rtr⟩
      simp only [hrl] at h
      rcases rr with re | ru
      · simp at h
      · rcases hrp : renderPipeline env ms with ⟨p, ptr⟩
        simp only [hrp] at h
        rcases p with pe | ph
        · simp at h
        · rcases hro : resolveOutput env out with oe | nm
          · simp only [hro] at h
            simp at h
          · simp only [hro] at h
            rcases hsv : save env ph nm with ⟨sr, str⟩
            simp only [hsv] at h
            rcases sr with se | su
            · simp at h
            · simp at h
              subst h
              rfl
    · simp at h

/-- C6: the output-destination policy, in the order of the code: empty path
means a fresh dag_*.html file in the system temporary directory; a path
naming an existing directory means a fresh dag_*.html file inside it; any
other path is used as the exact destination file (opened with
O_RDWR|O_CREATE|O_TRUNC, i.e. created if absent or truncated if present);
and whenever the whole run succeeds, `runNet` returns exactly the resolved
path. -/
theorem C6_output_resolution_policy (env : Env) (output : String) :
    (output.length = 0 → env.tempFileErr "" = none →
      resolveOutput env output =
        Except.ok (env.tmpDir ++ "/dag_" ++ env.rand ++ ".html") ∧
      matchesTempPattern env.tmpDir (env.tmpDir ++ "/dag_" ++ env.rand ++ ".html")) ∧
    (output.length ≠ 0 → env.statOk output = true → env.isDir output = true →
      env.tempFileErr output = none →
      resolveOutput env output = Except.ok (output ++ "/dag_" ++ env.rand ++ ".html") ∧
      matchesTempPattern output (output ++ "/dag_" ++ env.rand ++ ".html")) ∧
    (output.length ≠ 0 → (env.statOk output = false ∨ env.isDir output = false) →
      env.openFileErr output = none →
      resolveOutput env output = Except.ok output) ∧
    (∀ n bc name, (runNet env n bc output).1 = Except.ok name →
      resolveOutput env output = Except.ok name) := by
  refine ⟨?_, ?_, ?_, ?_⟩
  · intro hlen htf
    constructor
    · simp [resolveOutput, hlen, htf, tempFileName]
    · exact ⟨env.rand, rfl⟩
  · intro hlen hstat hdir htf
    constructor
    · simp [resolveOutput, hlen, hstat, hdir, htf, tempFileName]
    · exact ⟨env.rand, rfl⟩
  · intro hlen hnotdir hopen
    rcases hnotdir with h | h <;> simp [resolveOutput, hlen, h, hopen]
  · intro n bc name hrun
    exact runNet_ok_inv env n bc output name hrun

/-- C6 witness: the three policy cases and the returned-path property at
concrete inputs (empty path, a path that stats as a directory, and a plain
file path), under the all-success environment. -/
theorem C6_output_resolution_policy_witness :
    (resolveOutput okEnv "" = Except.ok ("/tmp" ++ "/dag_" ++ "12345" ++ ".html") ∧
      matchesTempPattern "/tmp" ("/tmp" ++ "/dag_" ++ "12345" ++ ".html")) ∧
    (resolveOutput okEnv "outdir" =
        Except.ok ("outdir" ++ "/dag_" ++ "12345" ++ ".html") ∧
      matchesTempPattern "outdir" ("outdir" ++ "/dag_" ++ "12345" ++ ".html")) ∧
    resolveOutput okEnv "out.html" = Except.ok "out.html" ∧
    resolveOutput okEnv "" = Except.ok "/tmp/dag_12345.html" :=
  ⟨(C6_output_resolution_policy okEnv "").1 rfl rfl,
   (C6_output_resolution_policy okEnv "outdir").2.1 (by decide) rfl rfl rfl,
   (C6_output_resolution_policy okEnv "out.html").2.2.1 (by decide) (Or.inl rfl) rfl,
   (C6_output_resolution_policy okEnv "").2.2.2 1 50 "/tmp/dag_12345.html" rfl⟩

end Dagdemo

namespace Dagdemo

theorem save_ok_inv (env : Env) (bytes name : String) (u : Unit) (str : List Event)
    (h : save env bytes name = (Except.ok u, str)) : str = [Event.write name bytes] := by
  unfold save at h
  rcases h1 : env.writeErr name with _ | e1 <;> rw [h1] at h
  · rcases h2 : env.closeErr name with _ | e2 <;> rw [h2] at h <;> simp at h
    exact h.symm
  · simp at h

theorem runNet_noOutput (env : Env) (n bc : Nat) (out : String)
    (hbody : noOutputEvents (runNetBody env (provOkList 0 n) bc out).2)
    (hp : provisionFrom env 0 n = (Except.ok (provOkList 0 n), provOkTrace 0 n)) :
    noOutputEvents (runNet env n bc out).2 := by
  have hgoal : (runNet env n bc out).2 =
      provOkTrace 0 n ++ (runNetBody env (provOkList 0 n) bc out).2 ++
        teardownEvents env (provOkList 0 n) := by
    unfold runNet
    rw [hp]
  rw [hgoal]
  intro e he
  rcases List.mem_append.mp he with h | h
  · rcases List.mem_append.mp h with h2 | h2
    · rcases provOkTrace_events n 0 e h2 with ⟨g, hg⟩ | ⟨g, hg⟩ <;> subst hg <;>
        exact ⟨fun nm => by simp, fun nm cc => by simp⟩
    · exact hbody e h2
  · rw [teardownEvents_eq] at h
    rcases List.mem_map.mp h with ⟨g, _, hg⟩
    subst hg
    exact ⟨fun nm => by simp, fun nm cc => by simp⟩

theorem body_noOutput_of_pipeline (env : Env) (ms : List Nat) (bc : Nat) (out : String)
    (hconn : env.connectErr = none) (rtr : List Event)
    (hrl : receiveLoop env 0 ms = (Except.ok (), rtr))
    (pe : String) (ptr : List Event)
    (hpl : renderPipeline env ms = (Except.error pe, ptr)) :
    noOutputEvents (runNetBody env ms bc out).2 := by
  unfold runNetBody
  simp only [hconn, hrl, hpl]
  intro x hx
  rcases List.mem_cons.mp hx with h | h
  · subst h
    exact ⟨fun nm => by simp, fun nm cc => by simp⟩
  · rcases List.mem_append.mp h with h | h
    · rcases List.mem_append.mp h with h2 | h2
      · rcases genEvents_events ms bc x h2 with ⟨g, hg⟩
        subst hg
        exact ⟨fun nm => by simp, fun nm cc => by simp⟩
      · rcases receiveLoop_events env ms 0 x (by rw [hrl]; exact h2) with ⟨g, hg⟩
        subst hg
        exact ⟨fun nm => by simp, fun nm cc => by simp⟩
    · rcases renderPipeline_events env ms x (by rw [hpl]; exact h) with h2 | h2 | h2 | h2 <;>
        subst h2 <;> exact ⟨fun nm => by simp, fun nm cc => by simp⟩

/-- C7: under successful provisioning, connection and generation, the
rendering is the fixed linear pipeline DOT → SVG → preamble strip → HTML wrap
with title `dag`: each stage's failure yields exactly that stage's wrapped
error and nothing is ever written or created on disk; when all four stages
succeed they appear as one contiguous block of the trace in pipeline order,
and the document saved on a successful run is exactly the HTML produced by
the final wrapping stage. -/
theorem C7_render_pipeline (env : Env) (n bc : Nat) (out : String)
    (hprov : ∀ k, k < n → env.newErr k = none ∧ env.setUpErr k = none)
    (hconn : env.connectErr = none)
    (hrecv : ∀ k, k < n → env.receiveErr k = none) :
    (∀ e, (env.renderDagsDotRes (provOkList 0 n)).2 = some e →
      (runNet env n bc out).1 =
        Except.error ("failed to render dag in graphviz DOT format: " ++ e) ∧
      noOutputEvents (runNet env n bc out).2) ∧
    (∀ dot e, env.renderDagsDotRes (provOkList 0 n) = (dot, none) →
      (env.dotToSvgRes dot).2 = some e →
      (runNet env n bc out).1 =
        Except.error ("failed to convert DOT file to SVG: " ++ e) ∧
      noOutputEvents (runNet env n bc out).2) ∧
    (∀ dot svg e, env.renderDagsDotRes (provOkList 0 n) = (dot, none) →
      env.dotToSvgRes dot = (svg, none) →
      (env.stripSvgXmlDeclRes svg).2 = some e →
      (runNet env n bc out).1 =
        Except.error ("failed to strip xml declaration from SVG image: " ++ e) ∧
      noOutputEvents (runNet env n bc out).2) ∧
    (∀ dot svg sve e, env.renderDagsDotRes (provOkList 0 n) = (dot, none) →
      env.dotToSvgRes dot = (svg, none) →
      env.stripSvgXmlDeclRes svg = (sve, none) →
      (env.renderSvgHTMLRes sve "dag").2 = some e →
      (runNet env n bc out).1 =
        Except.error ("failed to render SVG image as HTML: " ++ e) ∧
      noOutputEvents (runNet env n bc out).2) ∧
    (∀ dot svg sve html, env.renderDagsDotRes (provOkList 0 n) = (dot, none) →
      env.dotToSvgRes dot = (svg, none) →
      env.stripSvgXmlDeclRes svg = (sve, none) →
      env.renderSvgHTMLRes sve "dag" = (html, none) →
      (∃ pre post, (runNet env n bc out).2 =
        pre ++ [Event.renderDot, Event.dotToSvg, Event.stripDecl, Event.renderHTML] ++
          post) ∧
      (∀ name, (runNet env n bc out).1 = Except.ok name →
        Event.write name html ∈ (runNet env n bc out).2)) := by
  have hp := provisionFrom_all_ok env n 0 (fun k hk => by simpa using hprov k hk)
  have hrl : receiveLoop env 0 (provOkList 0 n) =
      (Except.ok (), (provOkList 0 n).map Event.receive) :=
    receiveLoop_all_ok env (provOkList 0 n) 0 (fun f hf =>
      hrecv f (by have := (provOkList_mem n 0 f).mp hf; omega))
  refine ⟨?_, ?_, ?_, ?_, ?_⟩
  · intro e h1
    rcases hrd : env.renderDagsDotRes (provOkList 0 n) with ⟨dot, err⟩
    rw [hrd] at h1
    simp at h1
    subst h1
    have hpl : renderPipeline env (provOkList 0 n) =
        (Except.error ("failed to render dag in graphviz DOT format: " ++ e),
         [Event.renderDot]) := by
      simp only [renderPipeline, hrd]
    refine ⟨?_, runNet_noOutput env n bc out
      (body_noOutput_of_pipeline env _ bc out hconn _ hrl _ _ hpl) hp⟩
    unfold runNet
    rw [hp]
    simp only [runNetBody, hconn, hrl, hpl]
  · intro dot e h1 h2
    rcases hds : env.dotToSvgRes dot with ⟨svg, err⟩
    rw [hds] at h2
    simp at h2
    subst h2
    have hpl : renderPipeline env (provOkList 0 n) =
        (Except.error ("failed to convert DOT file to SVG: " ++ e),
         [Event.renderDot, Event.dotToSvg]) := by
      simp only [renderPipeline, h1, hds]
    refine ⟨?_, runNet_noOutput env n bc out
      (body_noOutput_of_pipeline env _ bc out hconn _ hrl _ _ hpl) hp⟩
    unfold runNet
    rw [hp]
    simp only [runNetBody, hconn, hrl, hpl]
  · intro dot svg e h1 h2 h3
    rcases hst : env.stripSvgXmlDeclRes svg with ⟨sve, err⟩
    rw [hst] at h3
    simp at h3
    subst h3
    have hpl : renderPipeline env (provOkList 0 n) =
        (Except.error ("failed to strip xml declaration from SVG image: " ++ e),
         [Event.renderDot, Event.dotToSvg, Event.stripDecl]) := by
      simp only [renderPipeline, h1, h2, hst]
    refine ⟨?_, runNet_noOutput env n bc out
      (body_noOutput_of_pipeline env _ bc out hconn _ hrl _ _ hpl) hp⟩
    unfold runNet
    rw [hp]
    simp only [runNetBody, hconn, hrl, hpl]
  · intro dot svg sve e h1 h2 h3 h4
    rcases hht : env.renderSvgHTMLRes sve "dag" with ⟨html, err⟩
    rw [hht] at h4
    simp at h4
    subst h4
    have hpl : renderPipeline env (provOkList 0 n) =
        (Except.error ("failed to render SVG image as HTML: " ++ e),
         [Event.renderDot, Event.dotToSvg, Event.stripDecl, Event.renderHTML]) := by
      simp only [renderPipeline, h1, h2, h3, hht]
    refine ⟨?_, runNet_noOutput env n bc out
      (body_noOutput_of_pipeline env _ bc out hconn _ hrl _ _ hpl) hp⟩
    unfold runNet
    rw [hp]
    simp only [runNetBody, hconn, hrl, hpl]
  · intro dot svg sve html h1 h2 h3 h4
    have hpl : renderPipeline env (provOkList 0 n) =
        (Except.ok html,
         [Event.renderDot, Event.dotToSvg, Event.stripDecl, Event.renderHTML]) := by
      simp only [renderPipeline, h1, h2, h3, h4]
    constructor
    · rcases hro : resolveOutput env out with oe | nm
      · refine ⟨provOkTrace 0 n ++ Event.connectNodes ::
            (genEvents (provOkList 0 n) bc ++ (provOkList 0 n).map Event.receive),
          teardownEvents env (provOkList 0 n), ?_⟩
        unfold runNet
        rw [hp]
        simp only [runNetBody, hconn, hrl, hpl, hro]
        simp
      · rcases hsv : save env html nm with ⟨sr, str⟩
        rcases sr with se | su <;>
          refine ⟨provOkTrace 0 n ++ Event.connectNodes ::
              (genEvents (provOkList 0 n) bc ++ (provOkList 0 n).map Event.receive),
            Event.createFile nm :: str ++ teardownEvents env (provOkList 0 n), ?_⟩ <;>
          (unfold runNet; rw [hp]; simp only [runNetBody, hconn, hrl, hpl, hro, hsv]; simp)
    · intro name hname
      have hron := runNet_ok_inv env n bc out name hname
      rcases hsv : save env html name with ⟨sr, str⟩
      rcases sr with se | su
      · exfalso
        unfold runNet at hname
        rw [hp] at hname
        simp only [runNetBody, hconn, hrl, hpl, hron, hsv] at hname
        simp at hname
      · have hstr := save_ok_inv env html name su str hsv
        subst hstr
        unfold runNet
        rw [hp]
        simp only [runNetBody, hconn, hrl, hpl, hron, hsv]
        simp

/-- C7 witness: one miner, all stages succeeding; the pipeline block appears
contiguously and the saved bytes are the wrapped HTML document. -/
theorem C7_render_pipeline_witness :
    (∃ pre post, (runNet okEnv 1 50 "").2 =
      pre ++ [Event.renderDot, Event.dotToSvg, Event.stripDecl, Event.renderHTML] ++
        post) ∧
    (∀ name, (runNet okEnv 1 50 "").1 = Except.ok name →
      Event.write name "html dag stripped svg of digraph g" ∈ (runNet okEnv 1 50 "").2) :=
  (C7_render_pipeline okEnv 1 50 "" (fun _ _ => ⟨rfl, rfl⟩) rfl (fun _ _ => rfl)).2.2.2.2
    "digraph g" "svg of digraph g" "stripped svg of digraph g"
    "html dag stripped svg of digraph g" rfl rfl rfl rfl

/-- C8: `main` invokes the orchestration with the default parameters, 4 nodes
and 50 blocks per node; on success it exits with code 0 and prints the
resolved output path, and on any orchestration failure it prints the error
message and exits with the non-zero code 1. -/
theorem C8_main_behavior (env : Env) (out : String) :
    (∀ name, (runNet env 4 50 out).1 = Except.ok name →
      mainRun env out = (0, ["Generating dag", "Saved dag to " ++ name]) ∧
      resolveOutput env out = Except.ok name) ∧
    (∀ e, (runNet env 4 50 out).1 = Except.error e →
      mainRun env out = (1, ["Generating dag", e]) ∧ (1 : Nat) ≠ 0) := by
  constructor
  · intro name h
    refine ⟨?_, runNet_ok_inv env 4 50 out name h⟩
    unfold mainRun
    rw [h]
  · intro e h
    refine ⟨?_, by omega⟩
    unfold mainRun
    rw [h]
    rfl

/-- C8 witness: with every external call succeeding and no `-o` argument,
main exits 0 and prints the resolved temp-file path. -/
theorem C8_main_behavior_witness :
    mainRun okEnv "" = (0, ["Generating dag", "Saved dag to " ++ "/tmp/dag_12345.html"]) ∧
    resolveOutput okEnv "" = Except.ok "/tmp/dag_12345.html" :=
  (C8_main_behavior okEnv "").1 "/tmp/dag_12345.html" rfl

end Dagdemo
